import Mathlib
set_option autoImplicit false

/-!
Verification of the coordination core of the gemini-actus repository:
delivery-context normalization, the per-key announce queue, the subagent
run registry, and the secret-gathering tool invocation that correlates
ask-user requests and responses over the message bus.

Each definition is a shallow embedding of the corresponding TypeScript
source. JavaScript strings are Lean strings, JavaScript string helpers
(trim, toLowerCase) are re-implemented character-wise below, numbers that
the source only ever uses as timestamps or counters are Nat, and numbers
that may be negative are Int. Asynchronous code is embedded as explicit
state passing; the announce drain loop is driven by a fuel-indexed
simulator whose suspension points (the debounce sleep, the reschedule
timer) are the points at which pending external enqueue events fire.
-/

/-! ## JavaScript string primitives -/

/-- Whitespace recognized by JavaScript trim (the code points that occur in
practice: tab, LF, VT, FF, CR, space, NBSP, BOM). -/
def jsIsWs (c : Char) : Bool :=
  c.toNat = 9 || c.toNat = 10 || c.toNat = 11 || c.toNat = 12 ||
  c.toNat = 13 || c.toNat = 32 || c.toNat = 160 || c.toNat = 65279

/-- The upper-to-lower case table of basic latin letters. -/
def lowerPairs : List (Char × Char) :=
  [('A', 'a'), ('B', 'b'), ('C', 'c'), ('D', 'd'), ('E', 'e'), ('F', 'f'),
   ('G', 'g'), ('H', 'h'), ('I', 'i'), ('J', 'j'), ('K', 'k'), ('L', 'l'),
   ('M', 'm'), ('N', 'n'), ('O', 'o'), ('P', 'p'), ('Q', 'q'), ('R', 'r'),
   ('S', 's'), ('T', 't'), ('U', 'u'), ('V', 'v'), ('W', 'w'), ('X', 'x'),
   ('Y', 'y'), ('Z', 'z')]

/-- ASCII lowercasing of one character, as performed by
String.prototype.toLowerCase on the channel names this repository uses. -/
def jsLowerChar (c : Char) : Char :=
  match lowerPairs.find? (fun p => p.1 = c) with
  | some p => p.2
  | none => c

/-- Left trim on character lists. -/
def trimLeftL (l : List Char) : List Char := l.dropWhile jsIsWs

/-- Right trim on character lists. -/
def trimRightL (l : List Char) : List Char :=
  (l.reverse.dropWhile jsIsWs).reverse

/-- Both-ends trim on character lists. -/
def trimL (l : List Char) : List Char := trimRightL (trimLeftL l)

/-- Embedding of String.prototype.trim. -/
def jsTrim (s : String) : String := ⟨trimL s.data⟩

/-- Embedding of String.prototype.toLowerCase (ASCII range). -/
def jsToLower (s : String) : String := ⟨s.data.map jsLowerChar⟩

/-- Does the string contain the character? (String.prototype.includes with a
one-character needle.) -/
def jsIncludesChar (s : String) (c : Char) : Bool := s.data.contains c

/-- Does a string contain a whitespace character? Used to state the spec
side of the quoting claim. -/
def hasWhitespaceChar (s : String) : Bool := s.data.any jsIsWs

/-- List-level infix test: does the first list occur contiguously inside
the second? -/
def occursIn (n : List Char) : List Char → Bool
  | [] => n.isEmpty
  | c :: rest => n.isPrefixOf (c :: rest) || occursIn n rest

/-- Substring containment, used to state properties of built prompts. -/
def strContains (hay needle : String) : Bool := occursIn needle.data hay.data

/-! ## DeliveryContext (src/packages/core/src/utils/delivery-context.ts) -/

/-- A JavaScript threadId value: the TS type is string or number; a number
is either integer-valued, finite non-integer (carrying its Math.trunc), or
non-finite (NaN or infinite). -/
inductive ThreadIdVal where
  | str (s : String)
  | int (n : Int)
  | numNonInt (truncated : Int)
  | nonFinite
deriving DecidableEq, Repr

/-- delivery-context.ts: DeliveryContext. -/
structure DeliveryContext where
  channel : Option String := none
  «to» : Option String := none
  accountId : Option String := none
  threadId : Option ThreadIdVal := none
deriving DecidableEq, Repr

/-- delivery-context.ts, normalizeMessageChannel: trim + lowercase, empty
becomes undefined. -/
def normalizeMessageChannel (channel : Option String) : Option String :=
  match channel with
  | none => none
  | some s =>
    let t := jsToLower (jsTrim s)
    if t = "" then none else some t

/-- delivery-context.ts, normalizeAccountId: trim, empty becomes
undefined. -/
def normalizeAccountId (accountId : Option String) : Option String :=
  match accountId with
  | none => none
  | some s =>
    let t := jsTrim s
    if t = "" then none else some t

/-- delivery-context.ts, normalizeDeliveryContext, threadId leg: a finite
number is truncated (an integer-valued one is already its truncation), a
non-finite number becomes undefined, a string is trimmed. -/
def truncThreadId (t : ThreadIdVal) : Option ThreadIdVal :=
  match t with
  | ThreadIdVal.int n => some (ThreadIdVal.int n)
  | ThreadIdVal.numNonInt n => some (ThreadIdVal.int n)
  | ThreadIdVal.nonFinite => none
  | ThreadIdVal.str s => some (ThreadIdVal.str (jsTrim s))

/-- The `value || undefined` pattern of the source on an optional string:
an empty string collapses to undefined. -/
def collapseEmptyStr (x : Option String) : Option String :=
  x.bind (fun s => if s = "" then none else some s)

/-- delivery-context.ts, normalizeDeliveryContext: the
`normalizedThreadId` step — an empty thread string collapses to
undefined, every other thread value passes through. -/
def collapseEmptyThread (x : Option ThreadIdVal) : Option ThreadIdVal :=
  x.bind (fun t =>
    match t with
    | ThreadIdVal.str s =>
      if s = "" then none else some (ThreadIdVal.str s)
    | other => some other)

/-- delivery-context.ts, normalizeDeliveryContext. Field by field: channel
trimmed and lowercased, to trimmed, accountId trimmed, threadId truncated
when a finite number and trimmed when a string; undefined when every
component normalizes away. -/
def normalizeDeliveryContext (context : Option DeliveryContext) :
    Option DeliveryContext :=
  match context with
  | none => none
  | some c =>
    let channel := normalizeMessageChannel c.channel
    let «to» := c.«to».map jsTrim
    let accountId := normalizeAccountId c.accountId
    let normalizedThreadId := collapseEmptyThread (c.threadId.bind truncThreadId)
    if channel.isNone && («to».getD "") = "" && accountId.isNone &&
        normalizedThreadId.isNone then
      none
    else
      some { channel := channel,
             «to» := collapseEmptyStr «to»,
             accountId := accountId,
             threadId := normalizedThreadId }

/-- delivery-context.ts, deliveryContextKey: requires a normalized channel
and target; the key is the four components joined with vertical bars. -/
def deliveryContextKey (context : Option DeliveryContext) : Option String :=
  match normalizeDeliveryContext context with
  | none => none
  | some n =>
    match n.channel, n.«to» with
    | some channel, some theTo =>
      let threadId :=
        match n.threadId with
        | some (ThreadIdVal.str s) => if s = "" then "" else s
        | some (ThreadIdVal.int k) => toString k
        | some (ThreadIdVal.numNonInt k) => toString k
        | some ThreadIdVal.nonFinite => ""
        | none => ""
      some (channel ++ "|" ++ theTo ++ "|" ++ (n.accountId.getD "") ++ "|" ++ threadId)
    | _, _ => none

/-! ## Announce queue (subagent-announce-queue, src/unnamed/part_010) -/

/-- part_010: QueueMode. -/
inductive QueueMode where
  | auto | collect | interrupt | followup | steer | steerBacklog
deriving DecidableEq, Repr

/-- part_010: QueueDropPolicy. -/
inductive QueueDropPolicy where
  | keep | new | summarize | drop
deriving DecidableEq, Repr

/-- part_010: AnnounceQueueItem. originKey is filled in by enqueueAnnounce. -/
structure AnnounceQueueItem where
  prompt : String
  summaryLine : Option String := none
  enqueuedAt : Nat := 0
  sessionKey : String := ""
  origin : Option DeliveryContext := none
  originKey : Option String := none
deriving DecidableEq, Repr

/-- part_010: AnnounceQueueSettings. The optional numeric fields are Int
because the source defends against negative inputs with Math.max(0, x). -/
structure AnnounceQueueSettings where
  mode : QueueMode
  debounceMs : Option Int := none
  cap : Option Int := none
  dropPolicy : Option QueueDropPolicy := none
deriving DecidableEq, Repr

/-- part_010: AnnounceQueueState (the send callback is supplied to the
drain simulator separately, as a failure oracle plus a recorded trace). -/
structure AnnounceQueueState where
  items : List AnnounceQueueItem
  draining : Bool
  lastEnqueuedAt : Nat
  mode : QueueMode
  debounceMs : Nat
  cap : Nat
  dropPolicy : QueueDropPolicy
  droppedCount : Nat
deriving DecidableEq, Repr

/-- part_010, getAnnounceQueue, existing branch: overwrite the tunables
that the new settings provide. -/
def updateQueueSettings (q : AnnounceQueueState) (s : AnnounceQueueSettings) :
    AnnounceQueueState :=
  { q with
    mode := s.mode
    debounceMs := match s.debounceMs with
                  | some d => (max 0 d).toNat
                  | none => q.debounceMs
    cap := match s.cap with
           | some c => if 0 < c then c.toNat else q.cap
           | none => q.cap
    dropPolicy := s.dropPolicy.getD q.dropPolicy }

/-- part_010, getAnnounceQueue, creation branch: debounce defaults to
1000ms, cap to 20, dropPolicy to summarize. -/
def freshQueue (s : AnnounceQueueSettings) : AnnounceQueueState :=
  { items := []
    draining := false
    lastEnqueuedAt := 0
    mode := s.mode
    debounceMs := match s.debounceMs with
                  | some d => (max 0 d).toNat
                  | none => 1000
    cap := match s.cap with
           | some c => if 0 < c then c.toNat else 20
           | none => 20
    dropPolicy := s.dropPolicy.getD QueueDropPolicy.summarize
    droppedCount := 0 }

/-- The item actually stored by enqueueAnnounce: the caller's item with its
origin normalized and the derived originKey. -/
def storedItem (item : AnnounceQueueItem) : AnnounceQueueItem :=
  let origin := normalizeDeliveryContext item.origin
  { item with origin := origin, originKey := deliveryContextKey origin }

/-- part_010, enqueueAnnounce, restricted to one key of the global
ANNOUNCE_QUEUES map (none = the key is absent): look up or create the
queue state, stamp lastEnqueuedAt with the current time, push the
normalized item. Scheduling of the drain is handled by the simulator. -/
def enqueueAnnounceStep (now : Nat) (settings : AnnounceQueueSettings)
    (item : AnnounceQueueItem) (entry : Option AnnounceQueueState) :
    AnnounceQueueState :=
  let q := match entry with
           | some existing => updateQueueSettings existing settings
           | none => freshQueue settings
  let q := { q with lastEnqueuedAt := now }
  { q with items := q.items ++ [storedItem item] }

/-- A pending external enqueueAnnounce call: fires at the given time. -/
structure EnqueueEvent where
  «at» : Nat
  settings : AnnounceQueueSettings
  item : AnnounceQueueItem
deriving DecidableEq, Repr

/-- Deliver every pending event whose time has been reached (they fire, in
order, while the drain loop is suspended); each one is an enqueueAnnounce
call whose scheduleAnnounceDrain is a no-op because draining is true. -/
def deliverDue (now : Nat) :
    List EnqueueEvent → AnnounceQueueState →
    AnnounceQueueState × List EnqueueEvent
  | [], q => (q, [])
  | e :: rest, q =>
    if e.«at» ≤ now then
      deliverDue now rest (enqueueAnnounceStep e.«at» e.settings e.item (some q))
    else (q, e :: rest)

/-- One recorded send call: the item handed to send and whether the send
callback completed (false = it threw). -/
structure SendAttempt where
  item : AnnounceQueueItem
  ok : Bool
deriving DecidableEq, Repr

/-- Result of simulating the announce machinery for one key. -/
structure AnnounceSimResult where
  queue : Option AnnounceQueueState
  now : Nat
  attempts : List SendAttempt
  errorsLogged : Nat
  leftover : List EnqueueEvent
deriving DecidableEq, Repr

/-- The two control positions of the drain coroutine of part_010,
scheduleAnnounceDrain: inside the while loop, or in the finally block. -/
inductive DrainPhase where
  | loop | fin
deriving DecidableEq, Repr

/-- part_010, scheduleAnnounceDrain: fuel-indexed simulation of the drain
coroutine for one key. In phase loop: while items remain or drops are
pending, sleep half the debounce window while the last enqueue is within
debounceMs (pending events due by the end of the sleep fire during it),
otherwise shift the oldest item and call send; a send that throws is
logged and control moves to the finally block. In phase fin: clear
draining, delete the key when the queue is fully empty, otherwise
reschedule the drain 100ms later (an enqueue event arriving sooner
restarts it itself, since draining is false). -/
def drainSim (sendFails : AnnounceQueueItem → Bool) :
    Nat → DrainPhase → Nat → List EnqueueEvent → AnnounceQueueState →
    List SendAttempt → Nat → AnnounceSimResult
  | 0, _, now, es, q, tr, errs =>
    { queue := some q, now := now, attempts := tr, errorsLogged := errs,
      leftover := es }
  | fuel + 1, DrainPhase.loop, now, es, q, tr, errs =>
    if 0 < q.items.length || 0 < q.droppedCount then
      if now - q.lastEnqueuedAt < q.debounceMs then
        let now' := now + q.debounceMs / 2
        let (q', es') := deliverDue now' es q
        drainSim sendFails fuel DrainPhase.loop now' es' q' tr errs
      else
        match q.items with
        | [] => drainSim sendFails fuel DrainPhase.fin now es q tr errs
        | next :: rest =>
          let q' := { q with items := rest }
          if sendFails next then
            drainSim sendFails fuel DrainPhase.fin now es q'
              (tr ++ [{ item := next, ok := false }]) (errs + 1)
          else
            drainSim sendFails fuel DrainPhase.loop now es q'
              (tr ++ [{ item := next, ok := true }]) errs
    else drainSim sendFails fuel DrainPhase.fin now es q tr errs
  | fuel + 1, DrainPhase.fin, now, es, q, tr, errs =>
    let q := { q with draining := false }
    if q.items.isEmpty && q.droppedCount = 0 then
      match es with
      | [] =>
        { queue := none, now := now, attempts := tr, errorsLogged := errs,
          leftover := [] }
      | e :: rest =>
        let q0 := enqueueAnnounceStep e.«at» e.settings e.item none
        drainSim sendFails fuel DrainPhase.loop e.«at» rest
          { q0 with draining := true } tr errs
    else
      match es with
      | e :: rest =>
        if e.«at» ≤ now + 100 then
          let q2 := enqueueAnnounceStep e.«at» e.settings e.item (some q)
          drainSim sendFails fuel DrainPhase.loop e.«at» rest
            { q2 with draining := true } tr errs
        else
          drainSim sendFails fuel DrainPhase.loop (now + 100) es
            { q with draining := true } tr errs
      | [] =>
        drainSim sendFails fuel DrainPhase.loop (now + 100) es
          { q with draining := true } tr errs

/-- Run a whole announce scenario for one key: the first event creates the
queue and starts the drain coroutine, the remaining events fire at their
times while it runs. -/
def announceScenar (sendFails : AnnounceQueueItem → Bool) (fuel : Nat) :
    List EnqueueEvent → AnnounceSimResult
  | [] =>
    { queue := none, now := 0, attempts := [], errorsLogged := 0,
      leftover := [] }
  | e :: rest =>
    let q := enqueueAnnounceStep e.«at» e.settings e.item none
    drainSim sendFails fuel DrainPhase.loop e.«at» rest
      { q with draining := true } [] 0

/-- The state of a key after bare enqueueAnnounce calls only (used for the
capacity-policy claim, which is about the queue before any drain
delivery): fold the events over the map entry. -/
def enqueueOnly (events : List EnqueueEvent) : Option AnnounceQueueState :=
  events.foldl
    (fun entry e => some (enqueueAnnounceStep e.«at» e.settings e.item entry))
    none

/-! ## Subagent registry (SubagentRegistry, src/unnamed/part_010) -/

/-- part_010: SubagentRunOutcome. -/
structure SubagentRunOutcome where
  status : String
  error : Option String := none
deriving DecidableEq, Repr

/-- part_010: SubagentRunRecord. Optional numeric fields are Option Nat;
a JavaScript undefined is none. -/
structure SubagentRunRecord where
  runId : String
  childSessionKey : String := ""
  requesterSessionKey : String := ""
  requesterOrigin : Option DeliveryContext := none
  requesterDisplayKey : String := ""
  task : String := ""
  cleanup : String := "keep"
  label : Option String := none
  createdAt : Nat := 0
  startedAt : Option Nat := none
  endedAt : Option Nat := none
  outcome : Option SubagentRunOutcome := none
  archiveAtMs : Option Nat := none
  cleanupCompletedAt : Option Nat := none
  cleanupHandled : Option Bool := none
deriving DecidableEq, Repr

/-- A Partial of SubagentRunRecord as passed to updateRun: a provided field
overwrites, an absent field is untouched (Object.assign semantics). -/
structure SubagentRunPatch where
  childSessionKey : Option String := none
  requesterSessionKey : Option String := none
  requesterOrigin : Option (Option DeliveryContext) := none
  requesterDisplayKey : Option String := none
  task : Option String := none
  cleanup : Option String := none
  label : Option (Option String) := none
  createdAt : Option Nat := none
  startedAt : Option (Option Nat) := none
  endedAt : Option (Option Nat) := none
  outcome : Option (Option SubagentRunOutcome) := none
  archiveAtMs : Option (Option Nat) := none
  cleanupCompletedAt : Option (Option Nat) := none
  cleanupHandled : Option (Option Bool) := none
deriving DecidableEq, Repr

/-- Object.assign(existing, updates): each provided field of the patch
overwrites the record's field. -/
def assignPatch (r : SubagentRunRecord) (p : SubagentRunPatch) :
    SubagentRunRecord :=
  { r with
    childSessionKey := p.childSessionKey.getD r.childSessionKey
    requesterSessionKey := p.requesterSessionKey.getD r.requesterSessionKey
    requesterOrigin := p.requesterOrigin.getD r.requesterOrigin
    requesterDisplayKey := p.requesterDisplayKey.getD r.requesterDisplayKey
    task := p.task.getD r.task
    cleanup := p.cleanup.getD r.cleanup
    label := p.label.getD r.label
    createdAt := p.createdAt.getD r.createdAt
    startedAt := p.startedAt.getD r.startedAt
    endedAt := p.endedAt.getD r.endedAt
    outcome := p.outcome.getD r.outcome
    archiveAtMs := p.archiveAtMs.getD r.archiveAtMs
    cleanupCompletedAt := p.cleanupCompletedAt.getD r.cleanupCompletedAt
    cleanupHandled := p.cleanupHandled.getD r.cleanupHandled }

/-- part_010: the SubagentRegistry instance state. The backing file is
modelled as its parsed content (none = the file does not exist); timers is
instrumentation counting how many setInterval calls were made, so the
idempotence of startSweeper is observable. -/
structure Registry where
  runs : List (String × SubagentRunRecord) := []
  loaded : Bool := false
  sweeper : Bool := false
  timers : Nat := 0
  file : Option (List (String × SubagentRunRecord)) := none
deriving DecidableEq, Repr

namespace Registry

/-- JavaScript Map.get on the insertion-ordered run map. -/
def getRun (reg : Registry) (runId : String) : Option SubagentRunRecord :=
  (reg.runs.find? (fun e => e.1 = runId)).map (·.2)

/-- part_010, SubagentRegistry.startSweeper: arm the interval timer unless
one is already armed. -/
def startSweeper (reg : Registry) : Registry :=
  if reg.sweeper then reg
  else { reg with sweeper := true, timers := reg.timers + 1 }

/-- part_010, SubagentRegistry.stopSweeper: always disarm. -/
def stopSweeper (reg : Registry) : Registry :=
  { reg with sweeper := false }

/-- part_010, SubagentRegistry.load: idempotent first-use load of the
backing file into the run map (a missing file leaves the map as is), then
start the sweeper. -/
def load (reg : Registry) : Registry :=
  if reg.loaded then reg
  else
    let runs := match reg.file with
                | some entries => entries
                | none => reg.runs
    startSweeper { reg with runs := runs, loaded := true }

/-- part_010, SubagentRegistry.save: serialize the whole map over the
backing file. -/
def save (reg : Registry) : Registry :=
  { reg with file := some reg.runs }

/-- JavaScript Map.set: overwrite an existing key in place, otherwise
append. -/
def mapSet (runs : List (String × SubagentRunRecord)) (runId : String)
    (record : SubagentRunRecord) : List (String × SubagentRunRecord) :=
  if runs.any (fun e => e.1 = runId) then
    runs.map (fun e => if e.1 = runId then (e.1, record) else e)
  else runs ++ [(runId, record)]

/-- part_010, SubagentRegistry.registerRun: load, set, save, re-arm the
sweeper. -/
def registerRun (reg : Registry) (record : SubagentRunRecord) : Registry :=
  let reg := reg.load
  let reg := { reg with runs := mapSet reg.runs record.runId record }
  let reg := reg.save
  reg.startSweeper

/-- part_010, SubagentRegistry.updateRun: load, merge the provided fields
into the existing record, save; a no-op (no save either) when the runId is
unknown. -/
def updateRun (reg : Registry) (runId : String) (updates : SubagentRunPatch) :
    Registry :=
  let reg := reg.load
  match reg.getRun runId with
  | none => reg
  | some existing =>
    let reg :=
      { reg with runs := mapSet reg.runs runId (assignPatch existing updates) }
    reg.save

/-- part_010, SubagentRegistry.deleteRun: load, delete, save only if the
key was present. -/
def deleteRun (reg : Registry) (runId : String) : Registry :=
  let reg := reg.load
  if reg.runs.any (fun e => e.1 = runId) then
    (({ reg with runs := reg.runs.filter (fun e => ¬e.1 = runId) }) : Registry).save
  else reg

/-- The eviction test of part_010, SubagentRegistry.sweep:
entry.archiveAtMs && entry.archiveAtMs <= now, with JavaScript number
truthiness (an archiveAtMs of 0 is falsy and never evicts). -/
def shouldEvict (now : Nat) (r : SubagentRunRecord) : Bool :=
  match r.archiveAtMs with
  | some a => ¬a = 0 && a ≤ now
  | none => false

/-- part_010, SubagentRegistry.sweep: reload, evict every record whose
archiveAtMs is set and has elapsed, save only when something changed, and
disarm the sweeper once the map is empty. -/
def sweep (reg : Registry) (now : Nat) : Registry :=
  let reg := reg.load
  let kept := reg.runs.filter (fun e => ¬shouldEvict now e.2)
  let mutated := kept.length ≠ reg.runs.length
  let reg := { reg with runs := kept }
  let reg := if mutated then reg.save else reg
  if reg.runs.isEmpty then reg.stopSweeper else reg

/-- part_010, SubagentRegistry.listRunsForRequester: exact match after
trimming the argument; a blank key returns the empty list. -/
def listRunsForRequester (reg : Registry) (requesterSessionKey : String) :
    List SubagentRunRecord :=
  let key := jsTrim requesterSessionKey
  if key = "" then []
  else (reg.runs.filter (fun e => e.2.requesterSessionKey = key)).map (·.2)

end Registry

/-! ## Ask-user messages and the secrets tool
(src/packages/core/src/tools/webdev-request-secrets.ts) -/

/-- confirmation-bus types: one question of an AskUserRequest. -/
structure AskUserQuestion where
  question : String
  header : String
  placeholder : Option String := none
deriving DecidableEq, Repr

/-- confirmation-bus types: AskUserRequest. -/
structure AskUserRequest where
  correlationId : String
  questions : List AskUserQuestion
deriving DecidableEq, Repr

/-- confirmation-bus types: AskUserResponse; answers is the index-to-value
object in its JavaScript enumeration order. -/
structure AskUserResponse where
  correlationId : String
  answers : List (String × String) := []
  cancelled : Bool := false
deriving DecidableEq, Repr

/-- webdev-request-secrets.ts: SecretRequirement. -/
structure SecretRequirement where
  name : String
  description : String
deriving DecidableEq, Repr

/-- tools.ts: the slice of ToolResult this tool produces. -/
structure ToolResult where
  llmContent : String
  returnDisplay : String
  errorMessage : Option String := none
deriving DecidableEq, Repr

/-- Value of a digit list read in base 10. -/
def digitsVal (l : List Char) : Nat :=
  l.foldl (fun acc c => acc * 10 + (c.toNat - 48)) 0

/-- Embedding of parseInt(s, 10): skip leading whitespace, optional sign,
then leading decimal digits; NaN (none) when no digit follows. -/
def jsParseIntDec (s : String) : Option Int :=
  let l := s.data.dropWhile jsIsWs
  let signNeg : Bool := match l with
                        | '-' :: _ => true
                        | _ => false
  let body := match l with
              | '-' :: rest => rest
              | '+' :: rest => rest
              | _ => l
  let digits := body.takeWhile Char.isDigit
  if digits.isEmpty then none
  else
    let v : Int := digitsVal digits
    some (if signNeg then -v else v)

/-- webdev-request-secrets.ts, responseHandler: escaping of embedded
double quotes (value.replace of every double quote by backslash quote). -/
def escapeQuotes (value : String) : String :=
  ⟨(value.data.map (fun c => if c = '"' then ['\\', '"'] else [c])).flatten⟩

/-- Inverse reading of escapeQuotes on character lists: a backslash-quote
pair stands for one double quote. -/
def unescapeAux : List Char → List Char
  | [] => []
  | [c] => [c]
  | c1 :: c2 :: rest =>
    if c1 = '\\' ∧ c2 = '"' then '"' :: unescapeAux rest
    else c1 :: unescapeAux (c2 :: rest)

/-- Inverse reading of escapeQuotes: a backslash-quote pair stands for one
double quote. Used to state that quoting is reversible. -/
def unescapeQuotes (value : String) : String :=
  ⟨unescapeAux value.data⟩

/-- webdev-request-secrets.ts, responseHandler: a value containing a space
or a hash is wrapped in double quotes with embedded quotes escaped;
anything else is written verbatim. -/
def quoteEnvValue (value : String) : String :=
  if jsIncludesChar value ' ' || jsIncludesChar value '#' then
    "\"" ++ escapeQuotes value ++ "\""
  else value

/-- webdev-request-secrets.ts, responseHandler success branch: the text
appended to .env and the names of the secrets actually written. existing
is the current .env content (none = no file); a leading newline is added
when the existing content does not end in one; each answer whose index
parses to a known secret and whose value is non-empty contributes one
NAME=value line. -/
def buildEnvAppend (existing : Option String)
    (secrets : List SecretRequirement) (answers : List (String × String)) :
    String × List String :=
  let start : String :=
    match existing with
    | some current => if ¬current = "" && ¬current.endsWith "\n" then "\n" else ""
    | none => ""
  answers.foldl
    (fun acc kv =>
      let written :=
        match jsParseIntDec kv.1 with
        | some idx =>
          if 0 ≤ idx then
            match secrets.get? idx.toNat with
            | some secretDef =>
              if ¬kv.2 = "" then some secretDef.name else none
            | none => none
          else none
        | none => none
      match written with
      | some name => (acc.1 ++ name ++ "=" ++ quoteEnvValue kv.2 ++ "\n",
                      acc.2 ++ [name])
      | none => acc)
    (start, ([] : List String))

/-- webdev-request-secrets.ts: result resolved when the user cancelled the
request. -/
def cancelledRequestResult : ToolResult :=
  { llmContent := "User cancelled the secret request.",
    returnDisplay := "User cancelled request." }

/-- webdev-request-secrets.ts: result resolved on success. -/
def secretsSavedResult (names : List String) (message : String) : ToolResult :=
  { llmContent := "Successfully acquired and saved the following secrets to .env: "
      ++ String.intercalate ", " names ++ ". Context: " ++ message,
    returnDisplay := "Secrets saved to .env: " ++ String.intercalate ", " names }

/-- webdev-request-secrets.ts: result resolved by the abort handler. -/
def abortedResult : ToolResult :=
  { llmContent := "Tool execution cancelled.",
    returnDisplay := "Cancelled",
    errorMessage := some "Cancelled" }

/-- Observable state of one WebdevRequestSecretsToolInvocation.execute
call: whether its response handler is subscribed on the bus, whether its
abort listener is attached, how often resolve was invoked, the value the
promise settled on (a promise keeps its first value), and the .env file
content. -/
structure SecretsInvState where
  subscribed : Bool := false
  abortListenerAttached : Bool := false
  resolveCount : Nat := 0
  result : Option ToolResult := none
  envFile : Option String := none
deriving DecidableEq, Repr

/-- Invoking the promise resolve callback: counted always, but only the
first value settles the promise. -/
def resolveOnce (st : SecretsInvState) (r : ToolResult) : SecretsInvState :=
  { st with
    resolveCount := st.resolveCount + 1
    result := match st.result with
              | some first => some first
              | none => some r }

/-- webdev-request-secrets.ts, cleanup: unsubscribe the response handler
and remove the abort listener. -/
def cleanupStep (st : SecretsInvState) : SecretsInvState :=
  { st with subscribed := false, abortListenerAttached := false }

/-- webdev-request-secrets.ts, responseHandler: ignore a response whose
correlationId differs; on a match, clean up first, then resolve with a
cancellation result or append the answered secrets to .env and resolve
with the success result. -/
def responseHandler (correlationId : String)
    (secrets : List SecretRequirement) (message : String)
    (response : AskUserResponse) (st : SecretsInvState) : SecretsInvState :=
  if response.correlationId = correlationId then
    let st := cleanupStep st
    if response.cancelled then resolveOnce st cancelledRequestResult
    else
      let appended := buildEnvAppend st.envFile secrets response.answers
      let st := { st with envFile := some ((st.envFile.getD "") ++ appended.1) }
      resolveOnce st (secretsSavedResult appended.2 message)
  else st

/-- webdev-request-secrets.ts, abortHandler: clean up (which unsubscribes)
strictly before resolving with the cancelled result. -/
def abortHandler (st : SecretsInvState) : SecretsInvState :=
  resolveOnce (cleanupStep st) abortedResult

/-- Modelled from the spec: MessageBus.publish/subscribe/unsubscribe
(message-bus.ts is not under src/). Publishing a message invokes every
handler currently subscribed to its type; this invocation's subscription
set is its subscribed flag, so delivering an ask-user-response runs the
response handler exactly when the invocation is still subscribed, and is
a no-op after it unsubscribed. -/
def busDeliverAskUserResponse (correlationId : String)
    (secrets : List SecretRequirement) (message : String)
    (response : AskUserResponse) (st : SecretsInvState) : SecretsInvState :=
  if st.subscribed then
    responseHandler correlationId secrets message response st
  else st

/-- webdev-request-secrets.ts, execute, after building the request: when
the signal is already aborted run the abort handler and stop, otherwise
attach the abort listener and subscribe the response handler (the publish
of the request then goes out on the bus). -/
def executeStart (alreadyAborted : Bool) (envFile : Option String) :
    SecretsInvState :=
  let st : SecretsInvState := { envFile := envFile }
  if alreadyAborted then abortHandler st
  else { st with abortListenerAttached := true, subscribed := true }

/-- The abort signal firing while the invocation is waiting: the attached
listener runs the abort handler. -/
def fireAbortSignal (st : SecretsInvState) : SecretsInvState :=
  if st.abortListenerAttached then abortHandler st else st

/-! ## Announce flow (src/packages/core/src/agents/subagent-announce.ts) -/

/-- subagent-announce.ts, formatDurationShort: undefined for missing,
zero or non-positive durations; otherwise rounds to seconds
(Math.round(valueMs / 1000) embedded as (2 * v + 1000) / 2000 over Nat)
and renders h/m, m/s or s. -/
def formatDurationShort (valueMs : Option Nat) : Option String :=
  match valueMs with
  | none => none
  | some v =>
    if v = 0 then none
    else
      let totalSeconds := (2 * v + 1000) / 2000
      let hours := totalSeconds / 3600
      let minutes := totalSeconds % 3600 / 60
      let seconds := totalSeconds % 60
      if 0 < hours then some (toString hours ++ "h" ++ toString minutes ++ "m")
      else if 0 < minutes then
        some (toString minutes ++ "m" ++ toString seconds ++ "s")
      else some (toString seconds ++ "s")

/-- subagent-announce.ts, buildSubagentStatsLine: runtime is
max(0, endedAt - startedAt) when both ends are numbers; the line joins
runtime and sessionKey with a bullet. -/
def buildSubagentStatsLine (sessionKey : String) (startedAt endedAt : Option Nat) :
    String :=
  let runtimeMs : Option Nat :=
    match startedAt, endedAt with
    | some s, some e => some ((max 0 ((e : Int) - (s : Int))).toNat)
    | _, _ => none
  let runtime := formatDurationShort runtimeMs
  let parts := ["runtime " ++ runtime.getD "n/a", "sessionKey " ++ sessionKey]
  "Stats: " ++ String.intercalate " • " parts

/-- Parameters of runSubagentAnnounceFlow (subagent-announce.ts). -/
structure AnnounceFlowParams where
  childSessionKey : String := ""
  childRunId : String := ""
  requesterSessionKey : String := ""
  requesterOrigin : Option DeliveryContext := none
  requesterDisplayKey : String := ""
  task : String := ""
  timeoutMs : Nat := 0
  cleanup : String := "keep"
  roundOneReply : Option String := none
  startedAt : Option Nat := none
  endedAt : Option Nat := none
  label : Option String := none
  outcome : Option SubagentRunOutcome := none
deriving DecidableEq, Repr

/-- subagent-announce.ts, runSubagentAnnounceFlow: the status label built
from the outcome. -/
def announceStatusLabel (outcome : SubagentRunOutcome) : String :=
  if outcome.status = "ok" then "completed successfully"
  else if outcome.status = "timeout" then "timed out"
  else if outcome.status = "error" then
    "failed: " ++ (match outcome.error with
                   | some e => if e = "" then "unknown error" else e
                   | none => "unknown error")
  else "finished with unknown status"

/-- subagent-announce.ts, runSubagentAnnounceFlow: the enqueueAnnounce call
the flow performs, as the key and the enqueue event (fired at the current
time). Defaulted outcome, stats line, status label, task label, the joined
trigger message and the to-main origin fallback follow the source. -/
def runSubagentAnnounceFlowCall (now : Nat) (p : AnnounceFlowParams) :
    String × EnqueueEvent :=
  let requesterOrigin := normalizeDeliveryContext p.requesterOrigin
  let outcome := match p.outcome with
                 | some o => o
                 | none => { status := "unknown" }
  let statsLine := buildSubagentStatsLine p.childSessionKey p.startedAt p.endedAt
  let statusLabel := announceStatusLabel outcome
  let taskLabel :=
    match p.label with
    | some l => if l = "" then (if p.task = "" then "background task" else p.task)
                else l
    | none => if p.task = "" then "background task" else p.task
  let triggerMessage :=
    String.intercalate "\n"
      ["A background task \"" ++ taskLabel ++ "\" just " ++ statusLabel ++ ".",
       "", "Findings:",
       (match p.roundOneReply with
        | some r => if r = "" then "(no output)" else r
        | none => "(no output)"),
       "", statsLine]
  let origin : Option DeliveryContext :=
    match requesterOrigin with
    | some o => some o
    | none => some { «to» := some "main" }
  (if p.requesterSessionKey = "" then "global" else p.requesterSessionKey,
   { «at» := now
     settings := { mode := QueueMode.auto }
     item := { prompt := triggerMessage
               summaryLine := some taskLabel
               enqueuedAt := now
               sessionKey := p.requesterSessionKey
               origin := origin } })

/-- The announce flow parameters the end-to-end scenario builds from a
registry record: the record's own stats, outcome and labels, keyed by its
requester session. -/
def flowParamsOfRecord (r : SubagentRunRecord) : AnnounceFlowParams :=
  { childSessionKey := r.childSessionKey
    childRunId := r.runId
    requesterSessionKey := r.requesterSessionKey
    requesterOrigin := r.requesterOrigin
    requesterDisplayKey := r.requesterDisplayKey
    task := r.task
    cleanup := r.cleanup
    startedAt := r.startedAt
    endedAt := r.endedAt
    label := r.label
    outcome := r.outcome }

/-- Spec-side reading of the claim: normalization yields undefined exactly
when, after trimming (and lowercasing the channel), channel, to and
accountId are all empty or absent and threadId is null, empty or
non-finite. Stated from the claim's words, to be compared with the
source-derived normalizeDeliveryContext. -/
def contextNormalizesAway (c : DeliveryContext) : Bool :=
  (match c.channel with
   | none => true
   | some s => jsToLower (jsTrim s) = "") &&
  (match c.«to» with
   | none => true
   | some s => jsTrim s = "") &&
  (match c.accountId with
   | none => true
   | some s => jsTrim s = "") &&
  (match c.threadId with
   | none => true
   | some (ThreadIdVal.str s) => jsTrim s = ""
   | some (ThreadIdVal.int _) => false
   | some (ThreadIdVal.numNonInt _) => false
   | some ThreadIdVal.nonFinite => true)

/-- A delivery context in the image of normalizeDeliveryContext: every
present string field is a non-empty fixpoint of its normalization, the
threadId is a non-empty trimmed string or an integer, and at least one
component is present. -/
def IsNormalized (n : DeliveryContext) : Prop :=
  (∀ s, n.channel = some s → jsToLower (jsTrim s) = s ∧ ¬s = "") ∧
  (∀ s, n.«to» = some s → jsTrim s = s ∧ ¬s = "") ∧
  (∀ s, n.accountId = some s → jsTrim s = s ∧ ¬s = "") ∧
  (∀ t, n.threadId = some t →
      (∃ s, t = ThreadIdVal.str s ∧ jsTrim s = s ∧ ¬s = "") ∨
      (∃ k, t = ThreadIdVal.int k)) ∧
  ¬(n.channel = none ∧ n.«to» = none ∧ n.accountId = none ∧
    n.threadId = none)

/-! ## Concrete scenario definitions used by the claim theorems -/

/-- Queue settings with dropPolicy new and cap 1, as in the capacity
claim. -/
def capOneNewSettings : AnnounceQueueSettings :=
  { mode := QueueMode.auto, cap := some 1,
    dropPolicy := some QueueDropPolicy.new }

/-- The end-to-end scenario record: registered with createdAt 1000 and no
startedAt, as the spec writes it. -/
def c9record : SubagentRunRecord :=
  { runId := "r1", requesterSessionKey := "main", task := "t",
    cleanup := "keep", createdAt := 1000 }

/-- The end-to-end scenario registry after register and update. -/
def c9registry : Registry :=
  Registry.updateRun (Registry.registerRun {} c9record) "r1"
    { endedAt := some (some 2000),
      outcome := some (some { status := "ok" }) }

/-- The record read back in the end-to-end scenario. -/
def c9storedRecord : SubagentRunRecord :=
  (Registry.getRun c9registry "r1").getD { runId := "" }

/-- The enqueueAnnounce call the announce flow performs for the scenario
record (flow run at time 5000). -/
def c9call : String × EnqueueEvent :=
  runSubagentAnnounceFlowCall 5000 (flowParamsOfRecord c9storedRecord)

/-- Drain simulation of the end-to-end scenario: one enqueue, reliable
send. -/
def c9run : AnnounceSimResult := announceScenar (fun _ => false) 30 [c9call.2]

/-- The same scenario but with startedAt 1000 also recorded, giving the
record an actual runtime of 1000ms. -/
def c9registryStarted : Registry :=
  Registry.updateRun
    (Registry.registerRun {} { c9record with startedAt := some 1000 }) "r1"
    { endedAt := some (some 2000),
      outcome := some (some { status := "ok" }) }

/-- Drain simulation of the startedAt variant of the scenario. -/
def c9runStarted : AnnounceSimResult :=
  announceScenar (fun _ => false) 30
    [(runSubagentAnnounceFlowCall 5000
        (flowParamsOfRecord
          ((Registry.getRun c9registryStarted "r1").getD { runId := "" }))).2]

/-! ## Claim theorems -/

/-- C1: the claim says that with dropPolicy new and cap 1, two
enqueueAnnounce calls for one key before any drain leave exactly one item
and droppedCount 1, and that items.length never exceeds cap under the new
and drop policies. The code stores cap, dropPolicy and droppedCount but
enqueueAnnounce never consults them: after the two calls the queue holds
both items and droppedCount is 0, so the policy the spec (and the dead
droppedCount plumbing of the drain loop) intends is never applied. -/
theorem c1_capacity_policy_never_applied :
    (enqueueOnly
        [{ «at» := 0, settings := capOneNewSettings, item := { prompt := "A" } },
         { «at» := 10, settings := capOneNewSettings, item := { prompt := "B" } }]).map
        (fun q => (q.items.length, q.droppedCount, q.cap, q.dropPolicy))
      = some (2, 0, 1, QueueDropPolicy.new) := by decide

/-- C7: when send throws on the middle of three queued items, the drain
machinery logs one error, does not retry or re-queue the failed item, and
still delivers the remaining item (in the source the failing send aborts
the current while loop, and the finally block schedules a fresh drain
100ms later which delivers the rest). -/
theorem c7_send_failure_logged_and_loop_continues :
    (announceScenar (fun it => it.prompt = "B") 30
        [{ «at» := 0, settings := { mode := QueueMode.auto },
           item := { prompt := "A" } },
         { «at» := 300, settings := { mode := QueueMode.auto },
           item := { prompt := "B" } },
         { «at» := 600, settings := { mode := QueueMode.auto },
           item := { prompt := "C" } }])
      = { queue := none,
          now := 2100,
          attempts := [{ item := { prompt := "A" }, ok := true },
                       { item := { prompt := "B" }, ok := false },
                       { item := { prompt := "C" }, ok := true }],
          errorsLogged := 1,
          leftover := [] } := by decide

/-- C9 counterexample: in the end-to-end scenario exactly one send occurs
and its prompt contains "completed", but the prompt does not contain the
formatted runtime "1s": the registered record never sets startedAt
(createdAt is not used for the runtime), so buildSubagentStatsLine formats
the runtime as n/a. -/
theorem c9_runtime_counterexample :
    c9call.1 = "main" ∧
    c9run.attempts.map
        (fun a => (strContains a.item.prompt "completed",
                   strContains a.item.prompt "1s", a.ok))
      = [(true, false, true)] := by decide

/-- C9 amended: registering the scenario record, updating it with endedAt
2000 and an ok outcome, and running the announce flow built from the
record keyed "main" produces exactly one send call whose prompt contains
the word "completed" and the formatted runtime "n/a" (the record has no
startedAt); when the record additionally carries startedAt 1000 the prompt
instead contains the formatted runtime "1s". -/
theorem c9_end_to_end_amended :
    c9call.1 = "main" ∧
    c9run.attempts.map
        (fun a => (strContains a.item.prompt "completed",
                   strContains a.item.prompt "runtime n/a", a.ok))
      = [(true, true, true)] ∧
    c9runStarted.attempts.map
        (fun a => (strContains a.item.prompt "completed",
                   strContains a.item.prompt "runtime 1s", a.ok))
      = [(true, true, true)] := by decide

/-- C4: items A, B and C enqueued for the same key at times 0, 300 and
600 — all inside the default 1000ms debounce window — are each handed to
send exactly once, in exactly the order A, B, C, by the single drain
coroutine (the simulator records the awaited send calls strictly
sequentially, so the attempt order is the delivery order). -/
theorem c4_announce_fifo :
    announceScenar (fun _ => false) 30
        [{ «at» := 0, settings := { mode := QueueMode.auto },
           item := { prompt := "A" } },
         { «at» := 300, settings := { mode := QueueMode.auto },
           item := { prompt := "B" } },
         { «at» := 600, settings := { mode := QueueMode.auto },
           item := { prompt := "C" } }]
      = { queue := none,
          now := 2000,
          attempts := [{ item := { prompt := "A" }, ok := true },
                       { item := { prompt := "B" }, ok := true },
                       { item := { prompt := "C" }, ok := true }],
          errorsLogged := 0,
          leftover := [] } := by decide

/-- Prepending the empty string is the identity. -/
theorem strEmptyAppend (s : String) : "" ++ s = s := by
  cases s with
  | mk data => rfl

/-- C2: with the invocation of executeStart waiting on correlationId cid,
delivering an AskUserResponse carrying a different correlationId changes
nothing — it does not resolve and the response-handler subscription stays
in place — and then delivering the response carrying cid with answers
mapping index 0 to v resolves the invocation exactly once with the
success result for that answer (and appends it to the .env store). The
bus delivery itself is modelled from the spec because message-bus.ts is
not under src/. -/
theorem c2_correlation_id_filtering
    (cid other name desc message v : String)
    (hother : ¬other = cid) (hv : ¬v = "") :
    let secrets : List SecretRequirement := [{ name := name, description := desc }]
    let st1 := executeStart false none
    let st2 := busDeliverAskUserResponse cid secrets message
      { correlationId := other, answers := [("0", "x")] } st1
    let st3 := busDeliverAskUserResponse cid secrets message
      { correlationId := cid, answers := [("0", v)] } st2
    st2 = st1 ∧ st2.subscribed = true ∧ st2.result = none ∧
    st2.resolveCount = 0 ∧
    st3 = { subscribed := false, abortListenerAttached := false,
            resolveCount := 1,
            result := some (secretsSavedResult [name] message),
            envFile := some (name ++ "=" ++ quoteEnvValue v ++ "\n") } := by
  have h0 : jsParseIntDec "0" = some 0 := by decide
  refine ⟨?_, ?_, ?_, ?_, ?_⟩ <;>
    simp [busDeliverAskUserResponse, executeStart, responseHandler,
      cleanupStep, resolveOnce, buildEnvAppend, h0, hother, hv, strEmptyAppend]

/-- Witness for c2_correlation_id_filtering at concrete inputs. -/
theorem c2_correlation_id_filtering_witness :
    (¬"Y" = "X" ∧ ¬"v" = "") ∧
    (let secrets : List SecretRequirement :=
       [{ name := "KEY", description := "d" }]
     let st1 := executeStart false none
     let st2 := busDeliverAskUserResponse "X" secrets "m"
       { correlationId := "Y", answers := [("0", "x")] } st1
     let st3 := busDeliverAskUserResponse "X" secrets "m"
       { correlationId := "X", answers := [("0", "v")] } st2
     st2 = st1 ∧ st2.subscribed = true ∧ st2.result = none ∧
     st2.resolveCount = 0 ∧
     st3 = { subscribed := false, abortListenerAttached := false,
             resolveCount := 1,
             result := some (secretsSavedResult ["KEY"] "m"),
             envFile := some ("KEY" ++ "=" ++ quoteEnvValue "v" ++ "\n") }) :=
  ⟨⟨by decide, by decide⟩,
   c2_correlation_id_filtering "X" "Y" "KEY" "d" "m" "v"
     (by decide) (by decide)⟩

/-- C3: when the cancellation signal fires while the invocation is
waiting, the abort handler runs cleanup — which unsubscribes the response
handler — strictly before invoking resolve (the first conjunct exhibits
the factored order, and the cleaned-up intermediate state is unresolved
and unsubscribed); the invocation then holds the cancelled result with
resolveCount one; and a matching response delivered afterwards is a
no-op: the delivery function returns the state unchanged (in particular
it resolves nothing again and, being total, raises nothing). The bus
delivery is modelled from the spec because message-bus.ts is not under
src/. -/
theorem c3_cancel_unsubscribes_before_resolving
    (cid message : String) (secrets : List SecretRequirement)
    (response : AskUserResponse) (_hmatch : response.correlationId = cid) :
    let st1 := executeStart false none
    let cleaned := cleanupStep st1
    let st2 := fireAbortSignal st1
    st2 = resolveOnce cleaned abortedResult ∧
    cleaned.subscribed = false ∧ cleaned.resolveCount = 0 ∧
    cleaned.result = none ∧
    st2.resolveCount = 1 ∧ st2.result = some abortedResult ∧
    st2.subscribed = false ∧
    busDeliverAskUserResponse cid secrets message response st2 = st2 := by
  refine ⟨?_, ?_, ?_, ?_, ?_, ?_, ?_, ?_⟩ <;>
    simp [executeStart, fireAbortSignal, abortHandler, cleanupStep,
      resolveOnce, busDeliverAskUserResponse]

/-- Witness for c3_cancel_unsubscribes_before_resolving at concrete
inputs. -/
theorem c3_cancel_unsubscribes_before_resolving_witness :
    (let response : AskUserResponse :=
       { correlationId := "X", answers := [("0", "late")] }
     response.correlationId = "X") ∧
    (let st1 := executeStart false none
     let cleaned := cleanupStep st1
     let st2 := fireAbortSignal st1
     st2 = resolveOnce cleaned abortedResult ∧
     cleaned.subscribed = false ∧ cleaned.resolveCount = 0 ∧
     cleaned.result = none ∧
     st2.resolveCount = 1 ∧ st2.result = some abortedResult ∧
     st2.subscribed = false ∧
     busDeliverAskUserResponse "X" [{ name := "KEY", description := "d" }]
       "m" { correlationId := "X", answers := [("0", "late")] } st2 = st2) :=
  ⟨by decide,
   c3_cancel_unsubscribes_before_resolving "X" "m"
     [{ name := "KEY", description := "d" }]
     { correlationId := "X", answers := [("0", "late")] } (by decide)⟩

/-- A successful find? witnesses any. -/
theorem any_of_find?_some {p : String × SubagentRunRecord → Bool}
    {l : List (String × SubagentRunRecord)} {x : String × SubagentRunRecord}
    (h : l.find? p = some x) : l.any p = true := by
  induction l with
  | nil => simp [List.find?] at h
  | cons e rest ih =>
    by_cases hp : p e
    · simp [List.any_cons, hp]
    · simp [List.find?_cons, hp] at h
      simp [List.any_cons, hp, ih h]

/-- Replacing the value stored at a key: looking that key up afterwards
finds the new value. -/
theorem find?_mapReplace_self (id : String) (v : SubagentRunRecord) :
    ∀ runs : List (String × SubagentRunRecord),
    runs.any (fun e => e.1 = id) = true →
    (runs.map (fun e => if e.1 = id then (e.1, v) else e)).find?
        (fun e => e.1 = id) = some (id, v)
  | [], h => by simp at h
  | e :: rest, h => by
    by_cases he : e.1 = id
    · rw [List.map_cons, if_pos he, List.find?_cons]
      simp [he]
    · have hrest : rest.any (fun e => e.1 = id) = true := by
        simp [List.any_cons, he] at h
        simpa using h
      rw [List.map_cons, if_neg he, List.find?_cons]
      simp [he, find?_mapReplace_self id v rest hrest]

/-- Replacing the value stored at a key leaves lookups of other keys
unchanged. -/
theorem find?_mapReplace_other (id id' : String) (v : SubagentRunRecord)
    (hne : ¬id' = id) :
    ∀ runs : List (String × SubagentRunRecord),
    (runs.map (fun e => if e.1 = id then (e.1, v) else e)).find?
        (fun e => e.1 = id') = runs.find? (fun e => e.1 = id')
  | [] => by simp
  | e :: rest => by
    by_cases he : e.1 = id
    · have hne' : ¬e.1 = id' := by
        intro hx
        rw [he] at hx
        exact hne hx.symm
      have hid : ¬id = id' := fun hx => hne hx.symm
      rw [List.map_cons, if_pos he, List.find?_cons, List.find?_cons]
      simp [hne', he, hid, find?_mapReplace_other id id' v hne rest]
    · rw [List.map_cons, if_neg he, List.find?_cons, List.find?_cons]
      by_cases hp : e.1 = id'
      · simp [hp]
      · simp [hp, find?_mapReplace_other id id' v hne rest]

/-- load is a no-op once the registry is loaded. -/
theorem load_of_loaded (reg : Registry) (hl : reg.loaded = true) :
    reg.load = reg := by
  unfold Registry.load
  rw [if_pos hl]

/-- C6: updateRun with a patch carrying only endedAt rewrites exactly the
endedAt field of the addressed record (every other field keeps its value,
via the record-update form of the result), leaves every other record's
lookup unchanged, and for an unknown runId is a complete no-op: the
registry — in-memory map and backing file included — is returned
untouched. -/
theorem c6_updateRun_frame (reg : Registry) (hl : reg.loaded = true)
    (id : String) (T : Nat) (rec : SubagentRunRecord)
    (h : reg.getRun id = some rec) :
    let patch : SubagentRunPatch := { endedAt := some (some T) }
    let reg' := reg.updateRun id patch
    reg'.getRun id = some { rec with endedAt := some T } ∧
    (∀ id', ¬id' = id → reg'.getRun id' = reg.getRun id') ∧
    (∀ reg2 : Registry, reg2.loaded = true → reg2.getRun id = none →
      reg2.updateRun id patch = reg2) := by
  intro patch reg'
  have hfind : reg.runs.find? (fun e => e.1 = id) = some (id, rec) := by
    unfold Registry.getRun at h
    cases hf : reg.runs.find? (fun e => e.1 = id) with
    | none => rw [hf] at h; simp at h
    | some e =>
      rw [hf] at h
      simp at h
      have hpe := List.find?_some hf
      have he1 : e.1 = id := by simpa using hpe
      cases e with
      | mk k r => simp at he1 h; rw [he1, h]
  have hany : reg.runs.any (fun e => e.1 = id) = true :=
    any_of_find?_some hfind
  have hupd : reg' =
      Registry.save
        { reg with runs := Registry.mapSet reg.runs id (assignPatch rec patch) } := by
    show reg.updateRun id patch = _
    unfold Registry.updateRun
    simp only [load_of_loaded reg hl, h]
  refine ⟨?_, ?_, ?_⟩
  · rw [hupd]
    unfold Registry.save Registry.getRun
    simp only
    rw [show Registry.mapSet reg.runs id (assignPatch rec patch) =
        reg.runs.map (fun e => if e.1 = id then (e.1, assignPatch rec patch) else e) from by
      unfold Registry.mapSet; rw [if_pos hany]]
    rw [find?_mapReplace_self id (assignPatch rec patch) reg.runs hany]
    simp [assignPatch, patch]
  · intro id' hne
    rw [hupd]
    unfold Registry.save Registry.getRun
    simp only
    rw [show Registry.mapSet reg.runs id (assignPatch rec patch) =
        reg.runs.map (fun e => if e.1 = id then (e.1, assignPatch rec patch) else e) from by
      unfold Registry.mapSet; rw [if_pos hany]]
    rw [find?_mapReplace_other id id' (assignPatch rec patch) hne reg.runs]
  · intro reg2 hl2 h2
    unfold Registry.updateRun
    rw [load_of_loaded reg2 hl2]
    simp [h2]

/-- Witness for c6_updateRun_frame at a concrete registry. -/
theorem c6_updateRun_frame_witness :
    (let reg : Registry :=
       { runs := [("a", { runId := "a", task := "t1", createdAt := 7 }),
                  ("b", { runId := "b", task := "t2", createdAt := 8 })],
         loaded := true }
     reg.loaded = true ∧
     reg.getRun "a" = some { runId := "a", task := "t1", createdAt := 7 }) ∧
    (let reg : Registry :=
       { runs := [("a", { runId := "a", task := "t1", createdAt := 7 }),
                  ("b", { runId := "b", task := "t2", createdAt := 8 })],
         loaded := true }
     let patch : SubagentRunPatch := { endedAt := some (some 5) }
     let reg' := reg.updateRun "a" patch
     reg'.getRun "a"
        = some { runId := "a", task := "t1", createdAt := 7,
                 endedAt := some 5 } ∧
     (∀ id', ¬id' = "a" → reg'.getRun id' = reg.getRun id') ∧
     (∀ reg2 : Registry, reg2.loaded = true → reg2.getRun "a" = none →
       reg2.updateRun "a" patch = reg2)) :=
  ⟨⟨by decide, by decide⟩,
   c6_updateRun_frame
     { runs := [("a", { runId := "a", task := "t1", createdAt := 7 }),
                ("b", { runId := "b", task := "t2", createdAt := 8 })],
       loaded := true }
     (by decide) "a" 5 { runId := "a", task := "t1", createdAt := 7 }
     (by decide)⟩

/-- C5: one sweep tick at time now on a registry holding a record that
expired one millisecond ago and a record expiring 10 seconds from now
deletes the first, keeps the second, and saves the file (because
something changed; a tick that evicts nothing leaves the backing file and
the map untouched, as the sixth conjunct states for any registry); the
sweeper stays armed here because the map is non-empty, disarms itself
whenever a tick empties the map, and startSweeper is a no-op while a
timer is armed. The 2 <= now hypothesis keeps archiveAtMs = now - 1
non-zero, since a zero archiveAtMs is falsy in the source and means
unset. -/
theorem c5_sweep_tick (now : Nat) (hn : 2 ≤ now)
    (r1 r2 : SubagentRunRecord) (k1 k2 : String) (hk : ¬k1 = k2)
    (h1 : r1.archiveAtMs = some (now - 1))
    (h2 : r2.archiveAtMs = some (now + 10000))
    (reg : Registry) (hl : reg.loaded = true)
    (hruns : reg.runs = [(k1, r1), (k2, r2)]) :
    let reg' := reg.sweep now
    reg'.getRun k1 = none ∧ reg'.getRun k2 = some r2 ∧
    reg'.runs = [(k2, r2)] ∧ reg'.file = some [(k2, r2)] ∧
    reg'.sweeper = reg.sweeper ∧
    (∀ regA : Registry, regA.loaded = true →
      (∀ e ∈ regA.runs, Registry.shouldEvict now e.2 = false) →
      (regA.sweep now).runs = regA.runs ∧ (regA.sweep now).file = regA.file) ∧
    (∀ regB : Registry, (regB.sweep now).runs = [] →
      (regB.sweep now).sweeper = false) ∧
    (∀ regC : Registry, regC.sweeper = true → regC.startSweeper = regC) := by
  intro reg'
  have hev1 : Registry.shouldEvict now r1 = true := by
    simp [Registry.shouldEvict, h1]
    omega
  have hev2 : Registry.shouldEvict now r2 = false := by
    simp [Registry.shouldEvict, h2]
  have hreg' : reg' =
      ({ reg with runs := [(k2, r2)], file := some [(k2, r2)] } : Registry) := by
    show reg.sweep now = _
    unfold Registry.sweep
    rw [load_of_loaded reg hl]
    simp [hruns, hev1, hev2, hk, Registry.save]
  refine ⟨?_, ?_, ?_, ?_, ?_, ?_, ?_, ?_⟩
  · have hk' : ¬k2 = k1 := fun hx => hk hx.symm
    rw [hreg']
    simp [Registry.getRun, List.find?_cons, hk']
  · rw [hreg']
    simp [Registry.getRun, List.find?_cons]
  · rw [hreg']
  · rw [hreg']
  · rw [hreg']
  · intro regA hlA hno
    have hfilter : regA.runs.filter (fun e => !Registry.shouldEvict now e.2)
        = regA.runs := by
      apply List.filter_eq_self.mpr
      intro e he
      simp [hno e he]
    have hshape : regA.sweep now =
        if regA.runs.isEmpty then Registry.stopSweeper regA else regA := by
      unfold Registry.sweep
      rw [load_of_loaded regA hlA]
      simp [hfilter]
    rw [hshape]
    by_cases he : regA.runs.isEmpty <;>
      simp [he, Registry.stopSweeper]
  · intro regB
    obtain ⟨m, hm⟩ : ∃ regMid : Registry,
        regB.sweep now =
          if regMid.runs.isEmpty then regMid.stopSweeper else regMid := by
      unfold Registry.sweep
      exact ⟨_, rfl⟩
    rw [hm]
    by_cases he : m.runs.isEmpty
    · simp [he, Registry.stopSweeper]
    · simp [he]
      intro habs
      simp [habs] at he
  · intro regC hc
    unfold Registry.startSweeper
    rw [if_pos hc]

/-- Witness for c5_sweep_tick at a concrete registry and time. -/
theorem c5_sweep_tick_witness :
    (2 ≤ 2 ∧ ¬"x" = "y" ∧
     ({ runId := "x", archiveAtMs := some 1 } :
        SubagentRunRecord).archiveAtMs = some (2 - 1) ∧
     ({ runId := "y", archiveAtMs := some 10002 } :
        SubagentRunRecord).archiveAtMs = some (2 + 10000) ∧
     ({ runs := [("x", { runId := "x", archiveAtMs := some 1 }),
                 ("y", { runId := "y", archiveAtMs := some 10002 })],
        loaded := true, sweeper := true } : Registry).loaded = true ∧
     ({ runs := [("x", { runId := "x", archiveAtMs := some 1 }),
                 ("y", { runId := "y", archiveAtMs := some 10002 })],
        loaded := true, sweeper := true } : Registry).runs
       = [("x", { runId := "x", archiveAtMs := some 1 }),
          ("y", { runId := "y", archiveAtMs := some 10002 })]) ∧
    (let reg : Registry :=
       { runs := [("x", { runId := "x", archiveAtMs := some 1 }),
                  ("y", { runId := "y", archiveAtMs := some 10002 })],
         loaded := true, sweeper := true }
     let reg' := reg.sweep 2
     reg'.getRun "x" = none ∧
     reg'.getRun "y" = some { runId := "y", archiveAtMs := some 10002 } ∧
     reg'.runs = [("y", { runId := "y", archiveAtMs := some 10002 })] ∧
     reg'.file = some [("y", { runId := "y", archiveAtMs := some 10002 })] ∧
     reg'.sweeper = reg.sweeper ∧
     (∀ regA : Registry, regA.loaded = true →
       (∀ e ∈ regA.runs, Registry.shouldEvict 2 e.2 = false) →
       (regA.sweep 2).runs = regA.runs ∧ (regA.sweep 2).file = regA.file) ∧
     (∀ regB : Registry, (regB.sweep 2).runs = [] →
       (regB.sweep 2).sweeper = false) ∧
     (∀ regC : Registry, regC.sweeper = true → regC.startSweeper = regC)) :=
  ⟨⟨by decide, by decide, by decide, by decide, by decide, by decide⟩,
   c5_sweep_tick 2 (by decide)
     { runId := "x", archiveAtMs := some 1 }
     { runId := "y", archiveAtMs := some 10002 } "x" "y" (by decide)
     (by decide) (by decide)
     { runs := [("x", { runId := "x", archiveAtMs := some 1 }),
                ("y", { runId := "y", archiveAtMs := some 10002 })],
       loaded := true, sweeper := true }
     (by decide) (by decide)⟩

/-- unescapeAux consumes a backslash-quote pair as one double quote. -/
theorem unescapeAux_bsq (x : List Char) :
    unescapeAux ('\\' :: '"' :: x) = '"' :: unescapeAux x := by
  simp [unescapeAux]

/-- unescapeAux copies a head that does not open a backslash-quote
pair. -/
theorem unescapeAux_cons_ne (c1 c2 : Char) (x : List Char)
    (h : ¬(c1 = '\\' ∧ c2 = '"')) :
    unescapeAux (c1 :: c2 :: x) = c1 :: unescapeAux (c2 :: x) := by
  simp only [unescapeAux]
  rw [if_neg h]

/-- An escaped character list is empty exactly for the empty input and
never starts with a bare double quote. -/
theorem escFlat_head (rest : List Char) :
    ((rest.map (fun c => if c = '"' then ['\\', '"'] else [c])).flatten = []
      ∧ rest = []) ∨
    ∃ h t, (rest.map (fun c => if c = '"' then ['\\', '"'] else [c])).flatten
        = h :: t ∧ ¬h = '"' := by
  cases rest with
  | nil => left; exact ⟨rfl, rfl⟩
  | cons d r =>
    right
    by_cases hd : d = '"'
    · subst hd
      exact ⟨'\\',
        '"' :: (r.map (fun c => if c = '"' then ['\\', '"'] else [c])).flatten,
        by simp, by decide⟩
    · exact ⟨d, (r.map (fun c => if c = '"' then ['\\', '"'] else [c])).flatten,
        by simp [hd], hd⟩

/-- Escaping then unescaping character lists is the identity. -/
theorem unescape_escape_list (l : List Char) :
    unescapeAux ((l.map
        (fun c => if c = '"' then ['\\', '"'] else [c])).flatten) = l := by
  induction l with
  | nil => rfl
  | cons c rest ih =>
    simp only [List.map_cons, List.flatten_cons]
    by_cases hc : c = '"'
    · subst hc
      simp [unescapeAux_bsq, ih]
    · rw [if_neg hc]
      simp only [List.cons_append, List.nil_append]
      rcases escFlat_head rest with ⟨hE, hrest⟩ | ⟨h, t, hE, hne⟩
      · rw [hE, hrest]
        rfl
      · rw [hE, unescapeAux_cons_ne c h t (fun hx => hne hx.2), ← hE, ih]

/-- Quoting of env values is reversible: escaping then unescaping a value
gives the value back. -/
theorem unescape_escape (v : String) :
    unescapeQuotes (escapeQuotes v) = v := by
  cases v with
  | mk data => exact congrArg String.mk (unescape_escape_list data)

/-- C8 amended: on a successful response each answered value is appended
to .env as NAME=value with a trailing newline; a value containing a space
character or a hash (the two characters the source actually tests for —
not all whitespace) is wrapped in double quotes with embedded double
quotes escaped reversibly, and a value containing neither is written
verbatim. -/
theorem c8_env_quoting_amended (name desc v : String) (hv : ¬v = "") :
    (buildEnvAppend none [{ name := name, description := desc }] [("0", v)])
      = (name ++ "=" ++ quoteEnvValue v ++ "\n", [name]) ∧
    (jsIncludesChar v ' ' = false → jsIncludesChar v '#' = false →
      quoteEnvValue v = v) ∧
    (jsIncludesChar v ' ' = true ∨ jsIncludesChar v '#' = true →
      quoteEnvValue v = "\"" ++ escapeQuotes v ++ "\"" ∧
      unescapeQuotes (escapeQuotes v) = v) := by
  have h0 : jsParseIntDec "0" = some 0 := by decide
  refine ⟨?_, ?_, ?_⟩
  · simp [buildEnvAppend, h0, hv, strEmptyAppend]
  · intro hs hh
    simp [quoteEnvValue, hs, hh]
  · intro h
    have hcond : (jsIncludesChar v ' ' || jsIncludesChar v '#') = true := by
      rcases h with h | h <;> simp [h]
    exact ⟨by simp [quoteEnvValue, hcond], unescape_escape v⟩

/-- Witness for c8_env_quoting_amended at a concrete secret and value. -/
theorem c8_env_quoting_amended_witness :
    ¬"a b\"c" = "" ∧
    ((buildEnvAppend none [{ name := "K", description := "d" }]
        [("0", "a b\"c")])
      = ("K" ++ "=" ++ quoteEnvValue "a b\"c" ++ "\n", ["K"]) ∧
    (jsIncludesChar "a b\"c" ' ' = false → jsIncludesChar "a b\"c" '#' = false →
      quoteEnvValue "a b\"c" = "a b\"c") ∧
    (jsIncludesChar "a b\"c" ' ' = true ∨ jsIncludesChar "a b\"c" '#' = true →
      quoteEnvValue "a b\"c" = "\"" ++ escapeQuotes "a b\"c" ++ "\"" ∧
      unescapeQuotes (escapeQuotes "a b\"c") = "a b\"c")) :=
  ⟨by decide, c8_env_quoting_amended "K" "d" "a b\"c" (by decide)⟩

/-- C8 counterexample: the claim quotes every value containing whitespace,
but the source only tests for the space character: the value with a tab
is written to .env unquoted. -/
theorem c8_whitespace_counterexample :
    hasWhitespaceChar "a\tb" = true ∧
    quoteEnvValue "a\tb" = "a\tb" ∧
    (buildEnvAppend none [{ name := "K", description := "d" }]
        [("0", "a\tb")]).1 = "K=a\tb\n" ∧
    strContains "K=a\tb\n" "\"" = false := by decide

/-- Lowercasing either fixes a character or maps a table entry. -/
theorem jsLowerChar_split (c : Char) :
    jsLowerChar c = c ∨
    ∃ p, p ∈ lowerPairs ∧ p.1 = c ∧ jsLowerChar c = p.2 := by
  unfold jsLowerChar
  cases hf : lowerPairs.find? (fun p => p.1 = c) with
  | none => left; rfl
  | some p =>
    right
    refine ⟨p, List.mem_of_find?_eq_some hf, ?_, rfl⟩
    have := List.find?_some hf
    simpa using this

/-- The lowercase table's outputs are fixpoints and none of its
characters is whitespace. -/
theorem lowerPairs_facts :
    ∀ p ∈ lowerPairs,
      jsLowerChar p.2 = p.2 ∧ jsIsWs p.2 = false ∧ jsIsWs p.1 = false := by
  decide

/-- Character lowercasing is idempotent. -/
theorem jsLowerChar_idem (c : Char) :
    jsLowerChar (jsLowerChar c) = jsLowerChar c := by
  rcases jsLowerChar_split c with h | ⟨p, hm, _, he⟩
  · rw [h, h]
  · rw [he]
    exact (lowerPairs_facts p hm).1

/-- Lowercasing preserves whitespace-ness. -/
theorem jsIsWs_lower (c : Char) : jsIsWs (jsLowerChar c) = jsIsWs c := by
  rcases jsLowerChar_split c with h | ⟨p, hm, hp1, he⟩
  · rw [h]
  · rw [he, ← hp1]
    rw [(lowerPairs_facts p hm).2.1, (lowerPairs_facts p hm).2.2]

/-- dropWhile is idempotent. -/
theorem dropWhile_idem {α : Type} (p : α → Bool) (l : List α) :
    (l.dropWhile p).dropWhile p = l.dropWhile p := by
  induction l with
  | nil => rfl
  | cons c l ih =>
    by_cases hc : p c
    · simp [List.dropWhile_cons, hc, ih]
    · simp [List.dropWhile_cons, hc]

/-- dropWhile commutes with mapping a predicate-preserving function. -/
theorem dropWhile_map_comm {α : Type} (p : α → Bool) (f : α → α)
    (hf : ∀ a, p (f a) = p a) (l : List α) :
    (l.map f).dropWhile p = (l.dropWhile p).map f := by
  induction l with
  | nil => rfl
  | cons c l ih =>
    by_cases hc : p c
    · simp [List.dropWhile_cons, hc, hf, ih]
    · simp [List.dropWhile_cons, hc, hf]

/-- Right trim is idempotent. -/
theorem trimRightL_idem (l : List Char) :
    trimRightL (trimRightL l) = trimRightL l := by
  unfold trimRightL
  rw [List.reverse_reverse, dropWhile_idem]

/-- Right trim only removes a (whitespace) tail. -/
theorem trimRightL_append (l : List Char) :
    ∃ t, trimRightL l ++ t = l := by
  have hsuf : l.reverse.dropWhile jsIsWs <:+ l.reverse :=
    List.dropWhile_suffix jsIsWs
  obtain ⟨s, hs⟩ := hsuf
  refine ⟨s.reverse, ?_⟩
  unfold trimRightL
  rw [← List.reverse_append, hs, List.reverse_reverse]

/-- A non-empty left factor of a dropWhile fixpoint is itself a
fixpoint. -/
theorem dropWhile_eq_self_of_append (p : Char → Bool) (l t : List Char)
    (h : (l ++ t).dropWhile p = l ++ t) (hl : l ≠ []) :
    l.dropWhile p = l := by
  cases l with
  | nil => exact absurd rfl hl
  | cons c l' =>
    rw [List.cons_append, List.dropWhile_cons] at h
    by_cases hc : p c
    · exfalso
      rw [if_pos hc] at h
      have hlen := congrArg List.length h
      have hle : ((l' ++ t).dropWhile p).length ≤ (l' ++ t).length :=
        (List.dropWhile_sublist p).length_le
      simp [List.length_append] at hlen hle
      omega
    · rw [List.dropWhile_cons, if_neg hc]

/-- Trim is idempotent. -/
theorem trimL_idem (l : List Char) : trimL (trimL l) = trimL l := by
  unfold trimL trimLeftL
  obtain ⟨t, ht⟩ := trimRightL_append (l.dropWhile jsIsWs)
  by_cases hnil : trimRightL (l.dropWhile jsIsWs) = []
  · rw [hnil]
    rfl
  · have hclean : (trimRightL (l.dropWhile jsIsWs)).dropWhile jsIsWs
        = trimRightL (l.dropWhile jsIsWs) := by
      apply dropWhile_eq_self_of_append jsIsWs _ t _ hnil
      rw [ht]
      exact dropWhile_idem jsIsWs l
    rw [hclean, trimRightL_idem]

/-- Right trim commutes with mapping a whitespace-preserving
function. -/
theorem trimRightL_map_comm (f : Char → Char)
    (hf : ∀ a, jsIsWs (f a) = jsIsWs a) (l : List Char) :
    trimRightL (l.map f) = (trimRightL l).map f := by
  unfold trimRightL
  rw [← List.map_reverse, dropWhile_map_comm jsIsWs f hf, List.map_reverse]

/-- Trim commutes with mapping a whitespace-preserving function. -/
theorem trimL_map_comm (f : Char → Char)
    (hf : ∀ a, jsIsWs (f a) = jsIsWs a) (l : List Char) :
    trimL (l.map f) = (trimL l).map f := by
  unfold trimL trimLeftL
  rw [dropWhile_map_comm jsIsWs f hf, trimRightL_map_comm f hf]

/-- Lowercasing a character list is idempotent. -/
theorem map_lower_idem (l : List Char) :
    (l.map jsLowerChar).map jsLowerChar = l.map jsLowerChar := by
  rw [List.map_map]
  exact List.map_congr_left (fun a _ => jsLowerChar_idem a)

/-- String trim is idempotent. -/
theorem jsTrim_idem (s : String) : jsTrim (jsTrim s) = jsTrim s :=
  congrArg String.mk (trimL_idem s.data)

/-- Trimming commutes with lowercasing. -/
theorem jsTrim_toLower_comm (s : String) :
    jsTrim (jsToLower s) = jsToLower (jsTrim s) :=
  congrArg String.mk (trimL_map_comm jsLowerChar jsIsWs_lower s.data)

/-- String lowercasing is idempotent. -/
theorem jsToLower_idem (s : String) :
    jsToLower (jsToLower s) = jsToLower s :=
  congrArg String.mk (map_lower_idem s.data)

/-- The channel normalization (trim then lowercase) is idempotent. -/
theorem channel_fixpoint (s : String) :
    jsToLower (jsTrim (jsToLower (jsTrim s))) = jsToLower (jsTrim s) := by
  rw [jsTrim_toLower_comm, jsTrim_idem, jsToLower_idem]

/-- A channel whose value is a non-empty normalization fixpoint passes
through normalizeMessageChannel unchanged. -/
theorem normalizeMessageChannel_fix (ch : Option String)
    (h : ∀ s, ch = some s → jsToLower (jsTrim s) = s ∧ ¬s = "") :
    normalizeMessageChannel ch = ch := by
  cases ch with
  | none => rfl
  | some s =>
    obtain ⟨hfix, hnee⟩ := h s rfl
    simp [normalizeMessageChannel, hfix, hnee]

/-- An accountId whose value is a non-empty trim fixpoint passes through
normalizeAccountId unchanged. -/
theorem normalizeAccountId_fix (acc : Option String)
    (h : ∀ s, acc = some s → jsTrim s = s ∧ ¬s = "") :
    normalizeAccountId acc = acc := by
  cases acc with
  | none => rfl
  | some s =>
    obtain ⟨hfix, hnee⟩ := h s rfl
    simp [normalizeAccountId, hfix, hnee]

/-- A normalized context is a fixpoint of normalizeDeliveryContext. -/
theorem normalize_of_isNormalized (n : DeliveryContext)
    (hn : IsNormalized n) :
    normalizeDeliveryContext (some n) = some n := by
  obtain ⟨hch, hto, hacc, htid, hne⟩ := hn
  cases n with
  | mk ch toF acc tid =>
    have hch1 : normalizeMessageChannel ch = ch :=
      normalizeMessageChannel_fix ch hch
    have hto1 : toF.map jsTrim = toF := by
      cases toF with
      | none => rfl
      | some s =>
        obtain ⟨hfix, _⟩ := hto s rfl
        simp [hfix]
    have hacc1 : normalizeAccountId acc = acc :=
      normalizeAccountId_fix acc hacc
    have htid1 : collapseEmptyThread (tid.bind truncThreadId) = tid := by
      cases tid with
      | none => rfl
      | some t =>
        rcases htid t rfl with ⟨s, rfl, hfix, hnee⟩ | ⟨k, rfl⟩
        · simp [truncThreadId, collapseEmptyThread, hfix, hnee]
        · rfl
    have hcoll : collapseEmptyStr (toF.map jsTrim) = toF := by
      rw [hto1]
      cases toF with
      | none => rfl
      | some s =>
        obtain ⟨_, hnee⟩ := hto s rfl
        simp [collapseEmptyStr, hnee]
    have hguard : (ch.isNone && ((toF.map jsTrim).getD "") = "" &&
        acc.isNone && tid.isNone) = false := by
      rw [hto1]
      by_contra hguard
      have hg : (ch.isNone && (toF.getD "") = "" && acc.isNone &&
          tid.isNone) = true := by
        revert hguard
        cases (ch.isNone && (toF.getD "") = "" && acc.isNone && tid.isNone) <;>
          simp
      apply hne
      refine ⟨?_, ?_, ?_, ?_⟩
      · cases ch with
        | none => rfl
        | some s => simp at hg
      · cases toF with
        | none => rfl
        | some s =>
          obtain ⟨_, hnee⟩ := hto s rfl
          simp [hnee] at hg
      · cases acc with
        | none => rfl
        | some s => simp at hg
      · cases tid with
        | none => rfl
        | some t => simp at hg
    unfold normalizeDeliveryContext
    simp only [hch1, hacc1, htid1, hcoll, hguard, Bool.false_eq_true,
      if_false]

/-- Whatever normalizeDeliveryContext returns is normalized. -/
theorem isNormalized_of_normalize (c n : DeliveryContext)
    (h : normalizeDeliveryContext (some c) = some n) : IsNormalized n := by
  unfold normalizeDeliveryContext at h
  simp only at h
  split at h
  · exact absurd h (by simp)
  · rename_i hcond
    have hrec : n =
        { channel := normalizeMessageChannel c.channel,
          «to» := collapseEmptyStr (c.«to».map jsTrim),
          accountId := normalizeAccountId c.accountId,
          threadId := collapseEmptyThread (c.threadId.bind truncThreadId) } :=
      (Option.some.inj h).symm
    subst hrec
    refine ⟨?_, ?_, ?_, ?_, ?_⟩
    · intro s hs
      simp only at hs
      cases hcc : c.channel with
      | none => rw [hcc] at hs; simp [normalizeMessageChannel] at hs
      | some s0 =>
        rw [hcc] at hs
        by_cases he : jsToLower (jsTrim s0) = ""
        · simp [normalizeMessageChannel, he] at hs
        · simp [normalizeMessageChannel, he] at hs
          subst hs
          exact ⟨channel_fixpoint s0, he⟩
    · intro s hs
      simp only at hs
      cases hcc : c.«to» with
      | none => rw [hcc] at hs; simp [collapseEmptyStr] at hs
      | some s0 =>
        rw [hcc] at hs
        by_cases he : jsTrim s0 = ""
        · simp [collapseEmptyStr, he] at hs
        · simp [collapseEmptyStr, he] at hs
          subst hs
          exact ⟨jsTrim_idem s0, he⟩
    · intro s hs
      simp only at hs
      cases hcc : c.accountId with
      | none => rw [hcc] at hs; simp [normalizeAccountId] at hs
      | some s0 =>
        rw [hcc] at hs
        by_cases he : jsTrim s0 = ""
        · simp [normalizeAccountId, he] at hs
        · simp [normalizeAccountId, he] at hs
          subst hs
          exact ⟨jsTrim_idem s0, he⟩
    · intro t ht
      simp only at ht
      cases hcc : c.threadId with
      | none => rw [hcc] at ht; simp [collapseEmptyThread] at ht
      | some t0 =>
        rw [hcc] at ht
        cases t0 with
        | str s0 =>
          by_cases he : jsTrim s0 = ""
          · simp [truncThreadId, collapseEmptyThread, he] at ht
          · simp [truncThreadId, collapseEmptyThread, he] at ht
            exact Or.inl ⟨jsTrim s0, ht.symm, jsTrim_idem s0, he⟩
        | int k =>
          simp [truncThreadId, collapseEmptyThread] at ht
          exact Or.inr ⟨k, ht.symm⟩
        | numNonInt k =>
          simp [truncThreadId, collapseEmptyThread] at ht
          exact Or.inr ⟨k, ht.symm⟩
        | nonFinite =>
          simp [truncThreadId, collapseEmptyThread] at ht
    · intro hall
      obtain ⟨h1, h2, h3, h4⟩ := hall
      simp only at h1 h2 h3 h4
      apply hcond
      have hch0 : (normalizeMessageChannel c.channel).isNone = true := by
        rw [h1]; rfl
      have hacc0 : (normalizeAccountId c.accountId).isNone = true := by
        rw [h3]; rfl
      have htid0 : (collapseEmptyThread
          (c.threadId.bind truncThreadId)).isNone = true := by
        rw [h4]; rfl
      have hto0 : ((c.«to».map jsTrim).getD "") = "" := by
        cases hcc : c.«to» with
        | none => rfl
        | some s0 =>
          rw [hcc] at h2
          by_cases he : jsTrim s0 = ""
          · simp [he]
          · simp [collapseEmptyStr, he] at h2
      simp [hch0, hacc0, htid0, hto0]

/-- normalizeDeliveryContext returns undefined exactly under the claim's
emptiness condition. -/
theorem normalizesAway_iff (c : DeliveryContext) :
    normalizeDeliveryContext (some c) = none ↔
    contextNormalizesAway c = true := by
  have hswitch : ∀ (b : Bool) (r : DeliveryContext),
      ((if b = true then (none : Option DeliveryContext) else some r) = none
        ↔ b = true) := by
    intro b r
    cases b <;> simp
  obtain ⟨ch, toF, acc, tid⟩ := c
  unfold normalizeDeliveryContext
  simp only [hswitch]
  unfold contextNormalizesAway
  rcases ch with _ | cs <;> rcases toF with _ | ts <;>
    rcases acc with _ | as <;> rcases tid with _ | (s | k | k | _) <;>
    simp only [normalizeMessageChannel, normalizeAccountId, truncThreadId,
      collapseEmptyThread, collapseEmptyStr, Option.map_some', Option.map_none',
      Option.some_bind, Option.none_bind, Option.isNone_none, Option.isNone_some,
      Option.getD_some, Option.getD_none, Bool.and_eq_true, decide_eq_true_eq,
      and_assoc] <;>
    split_ifs <;> simp_all

/-- C10: normalizeDeliveryContext is idempotent; it returns undefined
exactly when, after trimming (and lowercasing the channel), the channel,
to and accountId are all empty or absent and the threadId is absent,
empty or non-finite; deliveryContextKey is invariant under prior
normalization (it only ever keys normalized contexts); and the item
stored by enqueueAnnounce carries exactly the normalized origin, itself a
fixpoint of normalization. -/
theorem c10_normalization :
    (∀ c : Option DeliveryContext,
        normalizeDeliveryContext (normalizeDeliveryContext c)
          = normalizeDeliveryContext c) ∧
    (∀ c : DeliveryContext,
        (normalizeDeliveryContext (some c) = none ↔
         contextNormalizesAway c = true)) ∧
    (∀ c : Option DeliveryContext,
        deliveryContextKey (normalizeDeliveryContext c)
          = deliveryContextKey c) ∧
    (∀ item : AnnounceQueueItem,
        (storedItem item).origin = normalizeDeliveryContext item.origin ∧
        normalizeDeliveryContext ((storedItem item).origin)
          = (storedItem item).origin) := by
  have hidem : ∀ c : Option DeliveryContext,
      normalizeDeliveryContext (normalizeDeliveryContext c)
        = normalizeDeliveryContext c := by
    intro c
    cases c with
    | none => rfl
    | some c' =>
      cases he : normalizeDeliveryContext (some c') with
      | none => rfl
      | some n =>
        exact normalize_of_isNormalized n (isNormalized_of_normalize c' n he)
  refine ⟨hidem, normalizesAway_iff, ?_, ?_⟩
  · intro c
    unfold deliveryContextKey
    rw [hidem c]
  · intro item
    refine ⟨rfl, ?_⟩
    show normalizeDeliveryContext (normalizeDeliveryContext item.origin) = _
    rw [hidem item.origin]
    rfl
